import Mathlib

/-!
# Verification of the bibtex splitter (`bibtexparser/splitter.py`)

A shallow embedding of the single-pass scanner/parser.  The input string is
modelled as a `List Char` (with the synthetic leading newline the constructor
prepends), the regex token pass as a character-by-character scan, and the
stateful splitter as explicit state passing with fuel for the loops.
Python's exceptions (`BlockAbortedException`, `ParserStateException`) become
an `Except` error type; the single-slot pushback (`_unaccepted_mark`) is an
explicit `Option Mark` field.
-/

namespace BibSplit

/-- The structural characters of the token regex `(?<!\\)[\{\}\",=\n]`. -/
def isStructural (c : Char) : Bool :=
  c == '\x7b' || c == '\x7d' || c == '"' || c == ',' || c == '=' || c == '\n'

/-- Python's `\w` (ASCII fragment): alphanumeric or underscore. -/
def wordChar (c : Char) : Bool :=
  c.isAlphanum || c == '_'

/-- Characters Python's `str.strip()` removes. -/
def isPySpace (c : Char) : Bool :=
  c == ' ' || c == '\t' || c == '\n' || c == '\r' || c == '\x0b' || c == '\x0c'

/-- Python `s.strip()` on a character list. -/
def pstrip (xs : List Char) : List Char :=
  ((xs.dropWhile isPySpace).reverse.dropWhile isPySpace).reverse

/-- Python `s.rstrip()` on a character list. -/
def rstripChars (xs : List Char) : List Char :=
  (xs.reverse.dropWhile isPySpace).reverse

/-- Python slice `s[a:b]` (clamping, empty when `b ≤ a`). -/
def slice (xs : List Char) (a b : Nat) : List Char :=
  (xs.drop a).take (b - a)

/-- Python `str.lower()` (ASCII fragment). -/
def pyLower (xs : List Char) : List Char :=
  xs.map Char.toLower

/-- The kind of a token produced by the regex
`(?<!\\)[\{\}\",=\n]|(?<=\n)@[\w]*(?={)`: one of the six structural
characters, or a block start `@word` (word characters only, brace lookahead
not included in the match). -/
inductive MarkVal where
  | lbrace
  | rbrace
  | dquote
  | comma
  | equal
  | newline
  | atWord (w : List Char)
  deriving DecidableEq, Repr

/-- The matched text `m.group(0)` of a token. -/
def MarkVal.text : MarkVal → List Char
  | .lbrace => ['\x7b']
  | .rbrace => ['\x7d']
  | .dquote => ['"']
  | .comma => [',']
  | .equal => ['=']
  | .newline => ['\n']
  | .atWord w => '@' :: w

/-- One regex match: start offset plus matched text kind. -/
structure Mark where
  start : Nat
  val : MarkVal
  deriving DecidableEq, Repr

/-- Python `m.end()`. -/
def Mark.stop (m : Mark) : Nat :=
  m.start + m.val.text.length

/-- Mark kind of a structural character (only applied to structural ones). -/
def structVal : Char → MarkVal
  | '\x7b' => .lbrace
  | '\x7d' => .rbrace
  | '"' => .dquote
  | ',' => .comma
  | '=' => .equal
  | _ => .newline

/-- Does `rest` start with a word-character run followed by `{`?
This is the `[\w]*(?={)` part of the block-start alternative. -/
def braceAfterWord (rest : List Char) : Bool :=
  match rest.drop (rest.takeWhile wordChar).length with
  | '\x7b' :: _ => true
  | _ => false

/-- Character-by-character model of `re.finditer` for the token regex.
`prev` is the character before the current position (for the `(?<!\\)` and
`(?<=\n)` lookbehinds), `i` the current offset.  The regex never rescans:
the characters inside an `@word` match are word characters, which can start
no match, so continuing character by character yields the same marks. -/
def scanAux : List Char → Option Char → Nat → List Mark
  | [], _, _ => []
  | c :: rest, prev, i =>
    if isStructural c && !(prev == some '\\') then
      ⟨i, structVal c⟩ :: scanAux rest (some c) (i + 1)
    else if c == '@' && prev == some '\n' && braceAfterWord rest then
      ⟨i, .atWord (rest.takeWhile wordChar)⟩ :: scanAux rest (some c) (i + 1)
    else
      scanAux rest (some c) (i + 1)

/-- All token marks of a buffer (which already carries the synthetic
leading newline). -/
def marksOf (bib : List Char) : List Mark :=
  scanAux bib none 0

/-- Scanner position state: the single-slot pushback `_unaccepted_mark`,
the not-yet-consumed tail of the mark iterator, `_current_line`, and
`_current_char_index`. -/
structure ScanSt where
  unaccepted : Option Mark
  marks : List Mark
  line : Int
  charIdx : Nat
  deriving DecidableEq, Repr

/-- Walk the mark iterator past newlines (incrementing the line counter),
as the recursive newline case of `_next_mark` does. -/
def nextMarkList : List Mark → Int → Option Mark × List Mark × Int
  | [], line => (none, [], line)
  | m :: rest, line =>
    match m.val with
    | .newline => nextMarkList rest (line + 1)
    | _ => (some m, rest, line)

/-- `_next_mark`: deliver the pushed-back mark if present, else the next
non-newline mark; record `_current_char_index` (buffer length at EOF). -/
def nextMark (bibLen : Nat) (st : ScanSt) : Option Mark × ScanSt :=
  match st.unaccepted with
  | some m => (some m, { st with unaccepted := none, charIdx := m.start })
  | none =>
    match nextMarkList st.marks st.line with
    | (none, ms, l) => (none, ⟨none, ms, l, bibLen⟩)
    | (some m, ms, l) => (some m, ⟨none, ms, l, m.start⟩)

/-- Store a mark in the single pushback slot (`self._unaccepted_mark = m`). -/
def pushBack (m : Mark) (st : ScanSt) : ScanSt :=
  { st with unaccepted := some m }

/-- A parsed field: `Field(start_line, key, value)`. -/
structure Field where
  startLine : Int
  key : String
  value : String
  deriving DecidableEq, Repr

/-- The data of an `Entry` block. -/
structure EntryData where
  startLine : Int
  entryType : String
  key : String
  fields : List Field
  raw : String
  deriving DecidableEq, Repr

/-- The block variants the splitter appends to the library.  `dupEntry` is
`DuplicateFieldKeyBlock(duplicate_keys, entry)`; `failed` is
`ParsingFailedBlock` (the abort reason string is not modelled, only the
start line and raw span). -/
inductive Block where
  | entry (e : EntryData)
  | dupEntry (duplicateKeys : List String) (e : EntryData)
  | explicitComment (startLine : Int) (comment : String) (raw : String)
  | implicitComment (startLine : Int) (comment : String) (raw : String)
  | stringDef (startLine : Int) (key : String) (value : String) (raw : String)
  | preamble (startLine : Int) (value : String) (raw : String)
  | failed (startLine : Int) (raw : String)
  deriving DecidableEq, Repr

/-- Whole splitter state: scanner position plus the fields
`_reset_block_status` manages (`_open_brackets`, `_is_quote_open`,
`_expected_next`, `_implicit_comment_start`, `_implicit_comment_start_line`). -/
structure SplitSt where
  scan : ScanSt
  openBrackets : Nat
  isQuoteOpen : Bool
  expectedNext : Option (List String)
  icStart : Option Nat
  icLine : Int
  deriving DecidableEq, Repr

/-- `_reset_block_status(current_char_index=self._current_char_index + 1)`,
as called at the end of each dispatched block.  Note it does not touch the
pushback slot. -/
def resetBlockStatus (st : SplitSt) : SplitSt :=
  { st with
    openBrackets := 0
    isQuoteOpen := false
    expectedNext := none
    icStart := some (st.scan.charIdx + 1)
    icLine := st.scan.line }

/-- The two exception kinds: `BlockAbortedException` (recoverable, carries
`end_index`; the splitter state at raise time, including any pushed-back
mark, travels alongside since Python keeps it in `self`), and the fatal
`ParserStateException` / `RegexMismatchException` / out-of-fuel. -/
inductive SplitErr where
  | aborted (endIndex : Nat) (st : SplitSt)
  | fatal (msg : String)

/-- `_next_mark(accept_eof=False)`: end of file raises a recoverable abort
with `end_index = len(self.bibstr)`. -/
def nextMarkE (bibLen : Nat) (st : SplitSt) : Except SplitErr (Mark × SplitSt) :=
  match nextMark bibLen st.scan with
  | (none, sc) => .error (.aborted bibLen { st with scan := sc })
  | (some m, sc) => .ok (m, { st with scan := sc })

/-- Push a mark back at the splitter-state level. -/
def pushBackS (m : Mark) (st : SplitSt) : SplitSt :=
  { st with scan := pushBack m st.scan }

/-- `_move_to_closed_bracket`: index of the curly bracket closing a just
opened one, respecting nesting; a block start aborts (pushed back, with
`end_index = m.start() - 1`). -/
def moveToClosedBracket (bibLen : Nat) : Nat → Nat → SplitSt → Except SplitErr (Nat × SplitSt)
  | 0, _, _ => .error (.fatal "out of fuel")
  | fuel + 1, depth, st =>
    match nextMarkE bibLen st with
    | .error e => .error e
    | .ok (m, st) =>
      match m.val with
      | .lbrace => moveToClosedBracket bibLen fuel (depth + 1) st
      | .rbrace =>
        if depth = 0 then .ok (m.start, st)
        else moveToClosedBracket bibLen fuel (depth - 1) st
      | .atWord _ => .error (.aborted (m.start - 1) (pushBackS m st))
      | _ => moveToClosedBracket bibLen fuel depth st

/-- `_move_to_end_of_double_quoted_string`: index of the closing `"`;
a block start aborts (pushed back, with `end_index = m.start() - 1`). -/
def moveToEndOfQuote (bibLen : Nat) : Nat → SplitSt → Except SplitErr (Nat × SplitSt)
  | 0, _ => .error (.fatal "out of fuel")
  | fuel + 1, st =>
    match nextMarkE bibLen st with
    | .error e => .error e
    | .ok (m, st) =>
      match m.val with
      | .dquote => .ok (m.start, st)
      | .atWord _ => .error (.aborted (m.start - 1) (pushBackS m st))
      | _ => moveToEndOfQuote bibLen fuel st

/-- `key in result` on the ordered field map. -/
def hasKey (fields : List Field) (k : String) : Bool :=
  fields.any (fun f => f.key == k)

/-- The rename target `f"{key}_duplicate_{count}"`. -/
def dupName (key : String) (count : Nat) : String :=
  key ++ "_duplicate_" ++ Nat.repr count

/-- The `while f"{key}_duplicate_{duplicate_count}" in result` scan:
first count from `c` upward whose rename target is not yet a key.
Fuel `fields.length + 1` always suffices because each tested occupied
name is a distinct key of the map. -/
def findSuffix (fields : List Field) (key : String) : Nat → Nat → Option Nat
  | 0, _ => none
  | fuel + 1, c =>
    if hasKey fields (dupName key c) then findSuffix fields key fuel (c + 1)
    else some c

/-- `duplicate_keys.add(key)` (Python set: insert if absent). -/
def addDup (dups : List String) (key : String) : List String :=
  if key ∈ dups then dups else dups ++ [key]

/-- `_move_to_end_of_entry(first_key_start)`: loop over fields until the
closing `}` of the entry; returns the ordered field map, the end index
(`equals_mark.end()` of the closing brace mark) and the duplicate key set. -/
def moveToEndOfEntry (bib : List Char) :
    Nat → Nat → List Field → List String → SplitSt →
    Except SplitErr (List Field × Nat × List String × SplitSt)
  | 0, _, _, _, _ => .error (.fatal "out of fuel")
  | fuel + 1, keyStart, fields, dups, st =>
    match nextMarkE bib.length st with
    | .error e => .error e
    | .ok (equalsMark, st) =>
      match equalsMark.val with
      | .rbrace => .ok (fields, equalsMark.stop, dups, st)
      | .equal =>
        let startLine := st.scan.line
        let keyEnd := equalsMark.start
        let valueStart := equalsMark.stop
        let afterValue :
            Except SplitErr (Nat × Nat × SplitSt) :=
          match nextMarkE bib.length st with
          | .error e => .error e
          | .ok (vsm, st) =>
            match vsm.val with
            | .lbrace =>
              match moveToClosedBracket bib.length fuel 0 st with
              | .error e => .error e
              | .ok (closeIdx, st) => .ok (closeIdx + 1, valueStart, st)
            | .dquote =>
              match moveToEndOfQuote bib.length fuel st with
              | .error e => .error e
              | .ok (closeIdx, st) => .ok (closeIdx + 1, valueStart, st)
            | .comma => .ok (vsm.start, valueStart, pushBackS vsm st)
            | .rbrace => .ok (vsm.start, valueStart, pushBackS vsm st)
            | _ => .error (.aborted vsm.start (pushBackS vsm st))
        match afterValue with
        | .error e => .error e
        | .ok (valueEnd, valueStart, st) =>
          let key := String.mk (pstrip (slice bib keyStart keyEnd))
          let value := String.mk (pstrip (slice bib valueStart valueEnd))
          let renamed :
              Except SplitErr (String × List String) :=
            if hasKey fields key then
              match findSuffix fields key (fields.length + 1) 1 with
              | some c => .ok (dupName key c, addDup dups key)
              | none => .error (.fatal "out of fuel")
            else .ok (key, dups)
          match renamed with
          | .error e => .error e
          | .ok (key, dups) =>
            let fields := fields ++ [⟨startLine, key, value⟩]
            match nextMarkE bib.length st with
            | .error e => .error e
            | .ok (afm, st) =>
              match afm.val with
              | .comma => moveToEndOfEntry bib fuel afm.stop fields dups st
              | .rbrace =>
                moveToEndOfEntry bib fuel keyStart fields dups (pushBackS afm st)
              | _ => .error (.aborted afm.start (pushBackS afm st))
      | _ => .error (.aborted equalsMark.start (pushBackS equalsMark st))

/-- `_handle_entry(m, m_val)`: expects `{`, the key, a comma, then the
field loop; wraps the entry in a `DuplicateFieldKeyBlock` when duplicate
keys were found.  A missing `{` is the fatal `ParserStateException`. -/
def handleEntry (bib : List Char) (fuel : Nat) (m : Mark) (mVal : List Char)
    (st : SplitSt) : Except SplitErr (Block × SplitSt) :=
  let startLine := st.scan.line
  let entryType := mVal.drop 1
  match nextMarkE bib.length st with
  | .error e => .error e
  | .ok (sb, st) =>
    match sb.val with
    | .lbrace =>
      match nextMarkE bib.length st with
      | .error e => .error e
      | .ok (cm, st) =>
        match cm.val with
        | .comma =>
          let st := { st with openBrackets := st.openBrackets + 1 }
          let key := String.mk (pstrip (slice bib (m.stop + 1) cm.start))
          match moveToEndOfEntry bib fuel cm.stop [] [] st with
          | .error e => .error e
          | .ok (fields, endIdx, dups, st) =>
            let e : EntryData :=
              ⟨startLine, String.mk entryType, key, fields,
                String.mk (slice bib m.start (endIdx + 1))⟩
            if dups.length > 0 then .ok (.dupEntry dups e, st)
            else .ok (.entry e, st)
        | _ => .error (.aborted cm.stop (pushBackS cm st))
    | _ => .error (.fatal "ParserStateException: entry regex not followed by bracket")

/-- `_handle_explicit_comment`: `@comment{...}`; the comment text is the
stripped region between the brackets.  A missing `{` is the fatal
`RegexMismatchException`. -/
def handleExplicitComment (bib : List Char) (fuel : Nat) (st : SplitSt) :
    Except SplitErr (Block × SplitSt) :=
  let startIndex := st.scan.charIdx
  let startLine := st.scan.line
  match nextMarkE bib.length st with
  | .error e => .error e
  | .ok (sb, st) =>
    match sb.val with
    | .lbrace =>
      match moveToClosedBracket bib.length fuel 0 st with
      | .error e => .error e
      | .ok (endBracketIdx, st) =>
        let commentStr := String.mk (pstrip (slice bib sb.stop endBracketIdx))
        .ok (.explicitComment startLine commentStr
          (String.mk (slice bib startIndex (endBracketIdx + 1))), st)
    | _ => .error (.fatal "RegexMismatchException")

/-- `_handle_string(m)`: `@string{key = value}`. -/
def handleString (bib : List Char) (fuel : Nat) (m : Mark) (st : SplitSt) :
    Except SplitErr (Block × SplitSt) :=
  let startIndex := st.scan.charIdx
  let startLine := st.scan.line
  match nextMarkE bib.length st with
  | .error e => .error e
  | .ok (sb, st) =>
    match sb.val with
    | .lbrace =>
      match nextMarkE bib.length st with
      | .error e => .error e
      | .ok (em, st) =>
        match em.val with
        | .equal =>
          let key := String.mk (pstrip (slice bib (m.stop + 1) em.start))
          let valueStart := em.stop
          match moveToClosedBracket bib.length fuel 0 st with
          | .error e => .error e
          | .ok (endIdx, st) =>
            .ok (.stringDef startLine key
              (String.mk (pstrip (slice bib valueStart endIdx)))
              (String.mk (slice bib startIndex (endIdx + 1))), st)
        | _ => .error (.aborted em.stop (pushBackS em st))
    | _ => .error (.fatal "ParserStateException: string regex not followed by bracket")

/-- `_handle_preamble`: `@preamble{value}` (value not trimmed). -/
def handlePreamble (bib : List Char) (fuel : Nat) (st : SplitSt) :
    Except SplitErr (Block × SplitSt) :=
  let startIndex := st.scan.charIdx
  let startLine := st.scan.line
  match nextMarkE bib.length st with
  | .error e => .error e
  | .ok (sb, st) =>
    match sb.val with
    | .lbrace =>
      match moveToClosedBracket bib.length fuel 0 st with
      | .error e => .error e
      | .ok (endBracketIdx, st) =>
        .ok (.preamble startLine (String.mk (slice bib sb.stop endBracketIdx))
          (String.mk (slice bib startIndex (endBracketIdx + 1))), st)
    | _ => .error (.fatal "ParserStateException: preamble regex not followed by bracket")

/-- The scan of `_end_implicit_comment` counting leading empty lines:
walks the comment, counting newlines, until the first non-whitespace
character; returns Python's loop variable `i` (the break position, or the
last index when no break happens) and the newline count. -/
def icWalk : List Char → Nat → Nat → Nat × Nat
  | [], j, cnt => (j, cnt)
  | [c], j, cnt => (j, if c == '\n' then cnt + 1 else cnt)
  | c :: c' :: rest, j, cnt =>
    if c == '\n' then icWalk (c' :: rest) (j + 1) (cnt + 1)
    else if isPySpace c then icWalk (c' :: rest) (j + 1) cnt
    else (j, cnt)

/-- `_end_implicit_comment(end_char_index)`: extract the region, strip the
leading empty lines (adjusting the start line) and trailing whitespace,
and produce a block only when the result is non-empty.  Note both `raw`
and `comment` are set to the trimmed text. -/
def endImplicitComment (bib : List Char) (icStart : Option Nat) (icLine : Int)
    (endIdx : Nat) : Option Block :=
  match icStart with
  | none => none
  | some s =>
    let comment := slice bib s endIdx
    let w := icWalk comment 0 0
    let comment := rstripChars (comment.drop w.1)
    if comment.length > 0 then
      some (.implicitComment (icLine + (w.2 : Int)) (String.mk comment)
        (String.mk comment))
    else none

/-- `startswith` on character lists. -/
def startsWithL (l p : List Char) : Bool :=
  p.isPrefixOf l

/-- Outcome of one iteration of the top-level `while True` loop of
`split`: end of input reached, loop continues with new library and state,
or a fatal exception propagates. -/
inductive StepOut where
  | done (lib : List Block) (st : SplitSt)
  | cont (lib : List Block) (st : SplitSt)
  | fail (msg : String)
  deriving Repr

/-- One iteration of the `split` loop: fetch the next mark; a non-block
mark is implicit-comment text; a block start closes the pending implicit
comment, dispatches by keyword, converts a recoverable abort into a
`ParsingFailedBlock`, and resets the block status. -/
def splitStep (bib : List Char) (fuel : Nat) (st : SplitSt) (lib : List Block) :
    StepOut :=
  match nextMark bib.length st.scan with
  | (none, sc) => .done lib { st with scan := sc }
  | (some m, sc) =>
    let st := { st with scan := sc }
    match m.val with
    | .atWord w =>
      let mVal := '@' :: pyLower w
      let lib :=
        match endImplicitComment bib st.icStart st.icLine m.start with
        | some c => lib ++ [c]
        | none => lib
      let st := { st with icStart := none }
      let startLine := st.scan.line
      let handled : Except SplitErr (Block × SplitSt) :=
        if startsWithL mVal "@comment".data then handleExplicitComment bib fuel st
        else if startsWithL mVal "@preamble".data then handlePreamble bib fuel st
        else if startsWithL mVal "@string".data then handleString bib fuel m st
        else handleEntry bib fuel m mVal st
      match handled with
      | .ok (b, st) => .cont (lib ++ [b]) (resetBlockStatus st)
      | .error (.aborted endIdx st) =>
        let fb := Block.failed startLine (String.mk (slice bib m.start endIdx))
        .cont (lib ++ [fb]) (resetBlockStatus st)
      | .error (.fatal msg) => .fail msg
    | _ => .cont lib st

/-- The `while True` loop of `split`, driven by fuel. -/
def splitLoop (bib : List Char) : Nat → SplitSt → List Block →
    Except String (List Block × SplitSt)
  | 0, _, _ => .error "out of fuel"
  | fuel + 1, st, lib =>
    match splitStep bib fuel st lib with
    | .done lib st => .ok (lib, st)
    | .cont lib st => splitLoop bib fuel st lib
    | .fail msg => .error msg

/-- The initial splitter state over a given mark list: `_current_line = -1`
(compensating the synthetic newline) and `_reset_block_status(0)`. -/
def initSt (marks : List Mark) : SplitSt :=
  ⟨⟨none, marks, -1, 0⟩, 0, false, none, some 0, -1⟩

/-- After the loop: close the implicit comment pending at end of file. -/
def splitFinish (bib : List Char) (r : Except String (List Block × SplitSt)) :
    Except String (List Block) :=
  match r with
  | .error msg => .error msg
  | .ok (lib, st) =>
    match endImplicitComment bib st.icStart st.icLine bib.length with
    | some c => .ok (lib ++ [c])
    | none => .ok lib

/-- `Splitter(bibstr).split()`: prepend the synthetic newline, run the
token pass, loop over blocks, and close the implicit comment pending at
end of file. -/
def splitBib (orig : String) : Except String (List Block) :=
  splitFinish ('\n' :: orig.data)
    (splitLoop ('\n' :: orig.data) ((marksOf ('\n' :: orig.data)).length + 2)
      (initSt (marksOf ('\n' :: orig.data))) [])

/-! ## Scanner step lemmas

The token pass is characterised on parametric inputs by three step
lemmas: a plain character (no structural meaning, not a block start, not
an escape) produces no mark; an unescaped structural character produces
its mark; `@` after a newline with a word run and `{` lookahead produces
a block-start mark. -/

/-- A character that can produce no mark and escape nothing. -/
def plainChar (c : Char) : Bool :=
  !isStructural c && !(c == '@') && !(c == '\\')

/-- The lookbehind character after scanning `xs` (last of `xs`, or the
previous lookbehind when `xs` is empty). -/
def lastOpt (xs : List Char) (prev : Option Char) : Option Char :=
  xs.getLast? <|> prev

/-- The marks of a run of `m` newlines starting at offset `i`. -/
def newlineMarks (i m : Nat) : List Mark :=
  (List.range m).map (fun j => ⟨i + j, .newline⟩)

theorem lastOpt_cons (c : Char) (xs : List Char) (prev : Option Char) :
    lastOpt (c :: xs) prev = lastOpt xs (some c) := by
  cases xs with
  | nil => rfl
  | cons d ds => simp [lastOpt, List.getLast?]

theorem scanAux_plain_cons {c : Char} (h : plainChar c = true)
    (ys : List Char) (prev : Option Char) (i : Nat) :
    scanAux (c :: ys) prev i = scanAux ys (some c) (i + 1) := by
  simp only [plainChar, Bool.and_eq_true, Bool.not_eq_true'] at h
  simp [scanAux, h.1.1, h.1.2, h.2]

theorem scanAux_plain_append {xs : List Char} (h : xs.all plainChar = true)
    (ys : List Char) (prev : Option Char) (i : Nat) :
    scanAux (xs ++ ys) prev i = scanAux ys (lastOpt xs prev) (i + xs.length) := by
  induction xs generalizing prev i with
  | nil => simp [lastOpt]
  | cons c cs ih =>
    simp only [List.all_cons, Bool.and_eq_true] at h
    rw [List.cons_append, scanAux_plain_cons h.1, ih h.2, lastOpt_cons]
    congr 1
    simp [List.length_cons]
    omega

theorem scanAux_struct_cons {c : Char} {prev : Option Char}
    (h : isStructural c = true) (hp : (prev == some '\\') = false)
    (ys : List Char) (i : Nat) :
    scanAux (c :: ys) prev i = ⟨i, structVal c⟩ :: scanAux ys (some c) (i + 1) := by
  simp [scanAux, h, hp]

theorem takeWhile_append_all {p : Char → Bool} {xs : List Char} {y : Char}
    (h : xs.all p = true) (hy : p y = false) (ys : List Char) :
    (xs ++ y :: ys).takeWhile p = xs := by
  induction xs with
  | nil => simp [List.takeWhile, hy]
  | cons c cs ih =>
    simp only [List.all_cons, Bool.and_eq_true] at h
    simp [List.takeWhile, h.1, ih h.2]

theorem scanAux_at {T : List Char} (hT : T.all wordChar = true)
    (ys : List Char) (i : Nat) :
    scanAux ('@' :: (T ++ '\x7b' :: ys)) (some '\n') i =
      ⟨i, .atWord T⟩ :: scanAux (T ++ '\x7b' :: ys) (some '@') (i + 1) := by
  have htake : (T ++ '\x7b' :: ys).takeWhile wordChar = T :=
    takeWhile_append_all hT (by decide) ys
  have hbrace : braceAfterWord (T ++ '\x7b' :: ys) = true := by
    simp [braceAfterWord, htake]
  simp [scanAux, isStructural, braceAfterWord, htake, hbrace]

theorem word_plain {c : Char} (h : wordChar c = true) : plainChar c = true := by
  have f : ∀ x : Char, wordChar x = false → (c == x) = false := by
    intro x hx
    cases hcx : c == x with
    | false => rfl
    | true =>
      rw [beq_iff_eq] at hcx
      subst hcx
      rw [hx] at h
      cases h
  simp [plainChar, isStructural, f '\x7b' (by decide), f '\x7d' (by decide),
    f '"' (by decide), f ',' (by decide), f '=' (by decide), f '\n' (by decide),
    f '@' (by decide), f '\\' (by decide)]

theorem all_word_plain {xs : List Char} (h : xs.all wordChar = true) :
    xs.all plainChar = true := by
  simp only [List.all_eq_true] at h ⊢
  exact fun c hc => word_plain (h c hc)

/-- Slice of a buffer decomposed as prefix, middle, suffix. -/
theorem slice_concrete {g P M R : List Char} {a b : Nat}
    (hbib : g = P ++ M ++ R) (ha : a = P.length)
    (hb : b = P.length + M.length) :
    slice g a b = M := by
  subst hbib ha hb
  unfold slice
  rw [List.append_assoc, List.drop_left, Nat.add_sub_cancel_left]
  exact List.take_left M R

/-- Slice running past the end of the buffer: everything after the prefix. -/
theorem slice_suffix {g P S : List Char} {a b : Nat}
    (hbib : g = P ++ S) (ha : a = P.length) (hb : g.length ≤ b) :
    slice g a b = S := by
  subst hbib ha
  unfold slice
  rw [List.drop_left]
  refine List.take_of_length_le ?_
  simp only [List.length_append] at hb
  omega

/-- An empty slice region. -/
theorem slice_nil {bib : List Char} {a b : Nat} (h : b ≤ a) :
    slice bib a b = [] := by
  unfold slice
  rw [Nat.sub_eq_zero_of_le h, List.take_zero]

/-- Closing an implicit-comment region whose slice is empty yields nothing. -/
theorem endImplicitComment_nil {bib : List Char} {s : Nat} (line : Int)
    (endIdx : Nat) (h : slice bib s endIdx = []) :
    endImplicitComment bib (some s) line endIdx = none := by
  simp [endImplicitComment, h, icWalk, rstripChars]

/-- The leading-empty-line scan on a run of newlines. -/
theorem icWalk_replicate (m j cnt : Nat) :
    icWalk (List.replicate (m + 1) '\n') j cnt = (j + m, cnt + m + 1) := by
  induction m generalizing j cnt with
  | zero => simp [icWalk, List.replicate]
  | succ m ih =>
    rw [List.replicate_succ]
    rw [show List.replicate (m + 1) '\n' = '\n' :: List.replicate m '\n' from
      List.replicate_succ '\n' (m)]
    rw [show icWalk ('\n' :: '\n' :: List.replicate m '\n') j cnt =
        icWalk ('\n' :: List.replicate m '\n') (j + 1) (cnt + 1) from by
      simp [icWalk]]
    rw [← List.replicate_succ]
    rw [ih]
    simp only [Prod.mk.injEq]
    omega

/-- Closing an implicit-comment region consisting of newlines only yields
nothing (the blank lines are stripped and the rest is empty). -/
theorem endImplicitComment_newlines {bib : List Char} {s : Nat} {m : Nat}
    (line : Int) (endIdx : Nat)
    (h : slice bib s endIdx = List.replicate m '\n') :
    endImplicitComment bib (some s) line endIdx = none := by
  cases m with
  | zero => exact endImplicitComment_nil line endIdx (by simpa using h)
  | succ m =>
    simp only [endImplicitComment, h, icWalk_replicate, Nat.zero_add]
    rw [show (List.replicate (m + 1) '\n').drop m = ['\n'] from by
      rw [List.replicate_succ']
      rw [List.drop_append_of_le_length (by simp)]
      simp]
    simp [rstripChars, isPySpace]

theorem newlineMarks_zero (i : Nat) : newlineMarks i 0 = [] := rfl

theorem newlineMarks_succ (i m : Nat) :
    newlineMarks i (m + 1) = ⟨i, .newline⟩ :: newlineMarks (i + 1) m := by
  unfold newlineMarks
  rw [List.range_succ_eq_map]
  simp [List.map_map, Function.comp]
  intro j hj
  omega

@[simp] theorem newlineMarks_length (i m : Nat) :
    (newlineMarks i m).length = m := by
  simp [newlineMarks]

/-- Scanning a run of newlines produces one newline mark per character. -/
theorem scanAux_newlines {prev : Option Char} (hp : (prev == some '\\') = false)
    (m : Nat) (ys : List Char) (i : Nat) :
    scanAux (List.replicate m '\n' ++ ys) prev i =
      newlineMarks i m ++ scanAux ys (lastOpt (List.replicate m '\n') prev) (i + m) := by
  induction m generalizing prev i with
  | zero => simp [newlineMarks_zero, lastOpt]
  | succ m ih =>
    rw [List.replicate_succ, List.cons_append,
      scanAux_struct_cons (by decide) hp, ih (by decide), newlineMarks_succ]
    rw [show i + (m + 1) = i + 1 + m from by omega, lastOpt_cons]
    simp [structVal]

/-- `_next_mark` walks past a run of newline marks, counting lines. -/
theorem nextMarkList_newlines (i m : Nat) (rest : List Mark) (line : Int) :
    nextMarkList (newlineMarks i m ++ rest) line = nextMarkList rest (line + m) := by
  induction m generalizing i line with
  | zero => simp [newlineMarks_zero]
  | succ m ih =>
    rw [newlineMarks_succ, List.cons_append]
    rw [show nextMarkList (⟨i, .newline⟩ :: (newlineMarks (i + 1) m ++ rest)) line =
        nextMarkList (newlineMarks (i + 1) m ++ rest) (line + 1) from rfl]
    rw [ih]
    congr 1
    omega

theorem lastOpt_not_backslash {xs : List Char} {prev : Option Char}
    (h : xs.all plainChar = true) (hp : (prev == some '\\') = false) :
    (lastOpt xs prev == some '\\') = false := by
  unfold lastOpt
  cases hl : xs.getLast? with
  | none => simpa using hp
  | some c =>
    have hc : c ∈ xs := by
      have hmem : c ∈ xs.getLast? := by simp [hl]
      obtain ⟨hne, hceq⟩ := List.mem_getLast?_eq_getLast hmem
      rw [hceq]
      exact List.getLast_mem hne
    simp only [List.all_eq_true] at h
    have := h c hc
    simp only [plainChar, Bool.and_eq_true, Bool.not_eq_true'] at this
    simpa using this.2


/-! ## The three-field entry family

`@T{k, a=1, b="x", c={y}}`, preceded by `n` blank lines, for any entry
type `T` (word characters, not routing to the comment/preamble/string
handlers) and any key `k` (plain characters, whitespace-trimmed).  These
lemmas drive the splitter over that family step by step. -/

set_option maxHeartbeats 1000000 in
/-- The field loop of `_move_to_end_of_entry` on the mark shape of
`, a=1, b="x", c={y}}` (generic offsets). -/
theorem mtee_entry3 {bib : List Char} {fuel kst e1 c1 e2 q1 q2 c2 e3 b1 r1 r2 : Nat}
    {line : Int} {ci : Nat}
    {ob : Nat} {qf : Bool} {ex : Option (List String)} {ic : Option Nat} {il : Int}
    (hk1 : pstrip (slice bib kst e1) = "a".data)
    (hv1 : pstrip (slice bib (e1 + 1) c1) = "1".data)
    (hk2 : pstrip (slice bib (c1 + 1) e2) = "b".data)
    (hv2 : pstrip (slice bib (e2 + 1) (q2 + 1)) = "\"x\"".data)
    (hk3 : pstrip (slice bib (c2 + 1) e3) = "c".data)
    (hv3 : pstrip (slice bib (e3 + 1) (r1 + 1)) = "\x7by\x7d".data) :
    moveToEndOfEntry bib (fuel + 4) kst [] []
      ⟨⟨none, [⟨e1, .equal⟩, ⟨c1, .comma⟩, ⟨e2, .equal⟩, ⟨q1, .dquote⟩, ⟨q2, .dquote⟩,
        ⟨c2, .comma⟩, ⟨e3, .equal⟩, ⟨b1, .lbrace⟩, ⟨r1, .rbrace⟩, ⟨r2, .rbrace⟩],
        line, ci⟩, ob, qf, ex, ic, il⟩
      = .ok ([⟨line, "a", "1"⟩, ⟨line, "b", "\"x\""⟩, ⟨line, "c", "\x7by\x7d"⟩], r2 + 1, [],
        ⟨⟨none, [], line, r2⟩, ob, qf, ex, ic, il⟩) := by
  simp +decide +arith [moveToEndOfEntry, moveToClosedBracket, moveToEndOfQuote,
    nextMarkE, nextMark, nextMarkList, pushBackS, pushBack, Mark.stop, MarkVal.text,
    hasKey, findSuffix, dupName, addDup, hk1, hv1, hk2, hv2, hk3, hv3]

set_option maxHeartbeats 1000000 in
/-- `_handle_entry` on the three-field family (generic offsets). -/
theorem handleEntry_entry3 {bib : List Char} {fuel : Nat} {T : List Char}
    (kd rawd : List Char)
    {a0 b0 c0 e1 c1 e2 q1 q2 c2 e3 b1 r1 r2 : Nat} {line : Int} {ci : Nat}
    {ob : Nat} {qf : Bool} {ex : Option (List String)} {ic : Option Nat} {il : Int}
    (hkey : pstrip (slice bib (a0 + (T.length + 1) + 1) c0) = kd)
    (hk1 : pstrip (slice bib (c0 + 1) e1) = "a".data)
    (hv1 : pstrip (slice bib (e1 + 1) c1) = "1".data)
    (hk2 : pstrip (slice bib (c1 + 1) e2) = "b".data)
    (hv2 : pstrip (slice bib (e2 + 1) (q2 + 1)) = "\"x\"".data)
    (hk3 : pstrip (slice bib (c2 + 1) e3) = "c".data)
    (hv3 : pstrip (slice bib (e3 + 1) (r1 + 1)) = "\x7by\x7d".data)
    (hraw : slice bib a0 (r2 + 1 + 1) = rawd) :
    handleEntry bib (fuel + 4) ⟨a0, .atWord T⟩ ('@' :: pyLower T)
      ⟨⟨none, ⟨b0, .lbrace⟩ :: ⟨c0, .comma⟩ :: [⟨e1, .equal⟩, ⟨c1, .comma⟩,
        ⟨e2, .equal⟩, ⟨q1, .dquote⟩, ⟨q2, .dquote⟩, ⟨c2, .comma⟩, ⟨e3, .equal⟩,
        ⟨b1, .lbrace⟩, ⟨r1, .rbrace⟩, ⟨r2, .rbrace⟩], line, ci⟩, ob, qf, ex, ic, il⟩
      = .ok (.entry ⟨line, String.mk (pyLower T), String.mk kd,
          [⟨line, "a", "1"⟩, ⟨line, "b", "\"x\""⟩, ⟨line, "c", "\x7by\x7d"⟩], String.mk rawd⟩,
        ⟨⟨none, [], line, r2⟩, ob + 1, qf, ex, ic, il⟩) := by
  simp [handleEntry, nextMarkE, nextMark, nextMarkList, Mark.stop, MarkVal.text,
    mtee_entry3, hkey, hk1, hv1, hk2, hv2, hk3, hv3, hraw]

set_option maxHeartbeats 1000000 in
/-- The token marks of the three-field family input. -/
theorem marks_entry3 (n : Nat) (T k : List Char)
    (hT : T.all wordChar = true) (hk : k.all plainChar = true) :
    marksOf ('\n' :: (List.replicate n '\n' ++
        ('@' :: (T ++ '\x7b' :: (k ++ ", a=1, b=\"x\", c=\x7by\x7d\x7d".data))))) =
      newlineMarks 0 (n + 1) ++
      [⟨n + 1, .atWord T⟩, ⟨n + T.length + 2, .lbrace⟩,
       ⟨n + T.length + k.length + 3, .comma⟩, ⟨n + T.length + k.length + 6, .equal⟩,
       ⟨n + T.length + k.length + 8, .comma⟩, ⟨n + T.length + k.length + 11, .equal⟩,
       ⟨n + T.length + k.length + 12, .dquote⟩, ⟨n + T.length + k.length + 14, .dquote⟩,
       ⟨n + T.length + k.length + 15, .comma⟩, ⟨n + T.length + k.length + 18, .equal⟩,
       ⟨n + T.length + k.length + 19, .lbrace⟩, ⟨n + T.length + k.length + 21, .rbrace⟩,
       ⟨n + T.length + k.length + 22, .rbrace⟩] := by
  have hTp := all_word_plain hT
  have h1 : (lastOpt T (some '@') == some '\\') = false :=
    lastOpt_not_backslash hTp (by decide)
  have h2 : (lastOpt k (some '\x7b') == some '\\') = false :=
    lastOpt_not_backslash hk (by decide)
  unfold marksOf
  rw [show ('\n' :: (List.replicate n '\n' ++
      ('@' :: (T ++ '\x7b' :: (k ++ ", a=1, b=\"x\", c=\x7by\x7d\x7d".data))))) =
      List.replicate (n + 1) '\n' ++
      ('@' :: (T ++ '\x7b' :: (k ++ ", a=1, b=\"x\", c=\x7by\x7d\x7d".data))) from by
    rw [List.replicate_succ]
    rfl]
  rw [scanAux_newlines (by decide)]
  rw [show lastOpt (List.replicate (n + 1) '\n') none = some '\n' from by
    rw [List.replicate_succ']
    simp [lastOpt]]
  rw [scanAux_at hT, scanAux_plain_append hTp, scanAux_struct_cons (by decide) h1,
    scanAux_plain_append hk, scanAux_struct_cons (by decide) h2]
  simp +decide [scanAux]
  constructor <;> omega

set_option maxHeartbeats 4000000 in
theorem splitBib_entry3 (n : Nat) (T k : List Char)
    (hT : T.all wordChar = true) (hk : k.all plainChar = true)
    (hc : startsWithL ('@' :: pyLower T) "@comment".data = false)
    (hp : startsWithL ('@' :: pyLower T) "@preamble".data = false)
    (hs : startsWithL ('@' :: pyLower T) "@string".data = false)
    (hks : pstrip k = k) :
    splitBib (String.mk (List.replicate n '\n' ++
        ('@' :: (T ++ '\x7b' :: (k ++ ", a=1, b=\"x\", c=\x7by\x7d\x7d".data))))) =
      .ok [.entry ⟨(n : Int), String.mk (pyLower T), String.mk k,
        [⟨(n : Int), "a", "1"⟩, ⟨(n : Int), "b", "\"x\""⟩, ⟨(n : Int), "c", "\x7by\x7d"⟩],
        String.mk ('@' :: (T ++ '\x7b' :: (k ++ ", a=1, b=\"x\", c=\x7by\x7d\x7d".data)))⟩] := by
  have hic1 : ∀ line : Int, endImplicitComment ('\n' :: (List.replicate n '\n' ++
      ('@' :: (T ++ '\x7b' :: (k ++ ", a=1, b=\"x\", c=\x7by\x7d\x7d".data))))) (some 0) line (n + 1)
      = none := by
    intro line
    refine endImplicitComment_newlines (m := n + 1) line _ ?_
    refine slice_concrete (P := []) (M := List.replicate (n + 1) '\n')
      (R := '@' :: (T ++ '\x7b' :: (k ++ ", a=1, b=\"x\", c=\x7by\x7d\x7d".data))) ?_ ?_ ?_
    · rw [List.replicate_succ]
      rfl
    · rfl
    · simp
  unfold splitBib
  rw [show (String.mk (List.replicate n '\n' ++
      ('@' :: (T ++ '\x7b' :: (k ++ ", a=1, b=\"x\", c=\x7by\x7d\x7d".data))))).data =
      List.replicate n '\n' ++ ('@' :: (T ++ '\x7b' :: (k ++ ", a=1, b=\"x\", c=\x7by\x7d\x7d".data)))
      from rfl]
  rw [marks_entry3 n T k hT hk]
  simp only [initSt, List.length_append, newlineMarks_length, List.length_cons,
    List.length_nil]
  simp [splitLoop, splitStep, nextMark, nextMarkList_newlines, nextMarkList,
    hic1, hc, hp, hs]
  rw [handleEntry_entry3 k ('@' :: (T ++ '\x7b' :: (k ++ ", a=1, b=\"x\", c=\x7by\x7d\x7d".data)))
    ?hkey ?hk1 ?hv1 ?hk2 ?hv2 ?hk3 ?hv3 ?hraw]
  case hkey =>
    rw [slice_concrete
      (P := '\n' :: (List.replicate n '\n' ++ ('@' :: (T ++ ['\x7b'])))) (M := k)
      (R := ", a=1, b=\"x\", c=\x7by\x7d\x7d".data)
      (by simp [List.append_assoc]) (by simp; omega) (by simp; omega)]
    exact hks
  case hk1 =>
    rw [slice_concrete
      (P := '\n' :: (List.replicate n '\n' ++ ('@' :: (T ++ '\x7b' :: (k ++ [','])))))
      (M := " a".data) (R := "=1, b=\"x\", c=\x7by\x7d\x7d".data)
      (by simp [List.append_assoc]) (by simp; omega) (by simp; omega)]
    decide
  case hv1 =>
    rw [slice_concrete
      (P := '\n' :: (List.replicate n '\n' ++ ('@' :: (T ++ '\x7b' :: (k ++ ", a=".data)))))
      (M := "1".data) (R := ", b=\"x\", c=\x7by\x7d\x7d".data)
      (by simp [List.append_assoc]) (by simp; omega) (by simp; omega)]
    decide
  case hk2 =>
    rw [slice_concrete
      (P := '\n' :: (List.replicate n '\n' ++ ('@' :: (T ++ '\x7b' :: (k ++ ", a=1,".data)))))
      (M := " b".data) (R := "=\"x\", c=\x7by\x7d\x7d".data)
      (by simp [List.append_assoc]) (by simp; omega) (by simp; omega)]
    decide
  case hv2 =>
    rw [slice_concrete
      (P := '\n' :: (List.replicate n '\n' ++ ('@' :: (T ++ '\x7b' :: (k ++ ", a=1, b=".data)))))
      (M := "\"x\"".data) (R := ", c=\x7by\x7d\x7d".data)
      (by simp [List.append_assoc]) (by simp; omega) (by simp; omega)]
    decide
  case hk3 =>
    rw [slice_concrete
      (P := '\n' :: (List.replicate n '\n' ++ ('@' :: (T ++ '\x7b' :: (k ++ ", a=1, b=\"x\",".data)))))
      (M := " c".data) (R := "=\x7by\x7d\x7d".data)
      (by simp [List.append_assoc]) (by simp; omega) (by simp; omega)]
    decide
  case hv3 =>
    rw [slice_concrete
      (P := '\n' :: (List.replicate n '\n' ++ ('@' :: (T ++ '\x7b' :: (k ++ ", a=1, b=\"x\", c=".data)))))
      (M := "\x7by\x7d".data) (R := "\x7d".data)
      (by simp [List.append_assoc]) (by simp; omega) (by simp; omega)]
    decide
  case hraw =>
    rw [slice_suffix (P := '\n' :: List.replicate n '\n')
      (S := '@' :: (T ++ '\x7b' :: (k ++ ", a=1, b=\"x\", c=\x7by\x7d\x7d".data)))
      (by simp) (by simp) (by simp; omega)]
  simp [resetBlockStatus, nextMark, nextMarkList, splitFinish]
  rw [endImplicitComment_nil _ _ (slice_nil (by simp; omega))]

/-! ## The abort-and-recover family

`@T{k, a=1` (unterminated) directly followed by `@U{k2, f=2}` on the next
line: the first block aborts at the `@U` boundary token, which is pushed
back and re-delivered, and the second entry parses normally. -/

/-- The field loop aborting on a block-start token while reading a field
value: the token is pushed back and the abort index is its start. -/
theorem mtee_abortAt {bib : List Char} {fuel kst e nl a1 : Nat} {w : List Char}
    {rest : List Mark} {line : Int} {ci : Nat}
    {ob : Nat} {qf : Bool} {ex : Option (List String)} {ic : Option Nat} {il : Int} :
    moveToEndOfEntry bib (fuel + 1) kst [] []
      ⟨⟨none, ⟨e, .equal⟩ :: ⟨nl, .newline⟩ :: ⟨a1, .atWord w⟩ :: rest, line, ci⟩,
        ob, qf, ex, ic, il⟩
      = .error (.aborted a1
        ⟨⟨some ⟨a1, .atWord w⟩, rest, line + 1, a1⟩, ob, qf, ex, ic, il⟩) := by
  simp [moveToEndOfEntry, nextMarkE, nextMark, nextMarkList, pushBackS, pushBack]

/-- `_handle_entry` aborting inside the field loop on a block-start token. -/
theorem handleEntry_abortAt {bib : List Char} {fuel : Nat} {m : Mark} {vw : List Char}
    {b0 c0 e nl a1 : Nat} {w : List Char} {rest : List Mark} {line : Int} {ci : Nat}
    {ob : Nat} {qf : Bool} {ex : Option (List String)} {ic : Option Nat} {il : Int} :
    handleEntry bib (fuel + 1) m vw
      ⟨⟨none, ⟨b0, .lbrace⟩ :: ⟨c0, .comma⟩ :: ⟨e, .equal⟩ :: ⟨nl, .newline⟩ ::
        ⟨a1, .atWord w⟩ :: rest, line, ci⟩, ob, qf, ex, ic, il⟩
      = .error (.aborted a1
        ⟨⟨some ⟨a1, .atWord w⟩, rest, line + 1, a1⟩, ob + 1, qf, ex, ic, il⟩) := by
  simp [handleEntry, nextMarkE, nextMark, nextMarkList, mtee_abortAt]

/-- The field loop on the single-field shape `, f=2}` (generic offsets). -/
theorem mtee_entry1 {bib : List Char} {fuel kst e r : Nat} {line : Int} {ci : Nat}
    {ob : Nat} {qf : Bool} {ex : Option (List String)} {ic : Option Nat} {il : Int}
    (hk1 : pstrip (slice bib kst e) = "f".data)
    (hv1 : pstrip (slice bib (e + 1) r) = "2".data) :
    moveToEndOfEntry bib (fuel + 2) kst [] []
      ⟨⟨none, [⟨e, .equal⟩, ⟨r, .rbrace⟩], line, ci⟩, ob, qf, ex, ic, il⟩
      = .ok ([⟨line, "f", "2"⟩], r + 1, [],
        ⟨⟨none, [], line, r⟩, ob, qf, ex, ic, il⟩) := by
  simp +decide +arith [moveToEndOfEntry, nextMarkE, nextMark, nextMarkList,
    pushBackS, pushBack, Mark.stop, MarkVal.text, hasKey, findSuffix, dupName,
    addDup, hk1, hv1]

/-- `_handle_entry` on the single-field family (generic offsets). -/
theorem handleEntry_entry1 {bib : List Char} {fuel : Nat} {U : List Char}
    (kd rawd : List Char) {a0 b0 c0 e r : Nat} {line : Int} {ci : Nat}
    {ob : Nat} {qf : Bool} {ex : Option (List String)} {ic : Option Nat} {il : Int}
    (hkey : pstrip (slice bib (a0 + (U.length + 1) + 1) c0) = kd)
    (hk1 : pstrip (slice bib (c0 + 1) e) = "f".data)
    (hv1 : pstrip (slice bib (e + 1) r) = "2".data)
    (hraw : slice bib a0 (r + 1 + 1) = rawd) :
    handleEntry bib (fuel + 2) ⟨a0, .atWord U⟩ ('@' :: pyLower U)
      ⟨⟨none, [⟨b0, .lbrace⟩, ⟨c0, .comma⟩, ⟨e, .equal⟩, ⟨r, .rbrace⟩],
        line, ci⟩, ob, qf, ex, ic, il⟩
      = .ok (.entry ⟨line, String.mk (pyLower U), String.mk kd,
          [⟨line, "f", "2"⟩], String.mk rawd⟩,
        ⟨⟨none, [], line, r⟩, ob + 1, qf, ex, ic, il⟩) := by
  simp [handleEntry, nextMarkE, nextMark, nextMarkList, Mark.stop, MarkVal.text,
    mtee_entry1, hkey, hk1, hv1, hraw]

set_option maxHeartbeats 1000000 in
/-- The token marks of the abort-and-recover family input. -/
theorem marks_abortRecover (T U k k2 : List Char)
    (hT : T.all wordChar = true) (hU : U.all wordChar = true)
    (hk : k.all plainChar = true) (hk2 : k2.all plainChar = true) :
    marksOf ('\n' :: '@' :: (T ++ '\x7b' :: (k ++
        (", a=1\n@".data ++ (U ++ '\x7b' :: (k2 ++ ", f=2\x7d".data)))))) =
      [⟨0, .newline⟩, ⟨1, .atWord T⟩, ⟨T.length + 2, .lbrace⟩,
       ⟨T.length + k.length + 3, .comma⟩, ⟨T.length + k.length + 6, .equal⟩,
       ⟨T.length + k.length + 8, .newline⟩, ⟨T.length + k.length + 9, .atWord U⟩,
       ⟨T.length + k.length + U.length + 10, .lbrace⟩,
       ⟨T.length + k.length + U.length + k2.length + 11, .comma⟩,
       ⟨T.length + k.length + U.length + k2.length + 14, .equal⟩,
       ⟨T.length + k.length + U.length + k2.length + 16, .rbrace⟩] := by
  have hTp := all_word_plain hT
  have hUp := all_word_plain hU
  have h1 : (lastOpt T (some '@') == some '\\') = false :=
    lastOpt_not_backslash hTp (by decide)
  have h1u : (lastOpt U (some '@') == some '\\') = false :=
    lastOpt_not_backslash hUp (by decide)
  have h2 : (lastOpt k (some '\x7b') == some '\\') = false :=
    lastOpt_not_backslash hk (by decide)
  have h2u : (lastOpt k2 (some '\x7b') == some '\\') = false :=
    lastOpt_not_backslash hk2 (by decide)
  unfold marksOf
  rw [scanAux_struct_cons (by decide) (by decide),
      scanAux_at hT,
      scanAux_plain_append hTp,
      scanAux_struct_cons (by decide) h1,
      scanAux_plain_append hk,
      show (", a=1\n@".data ++ (U ++ '\x7b' :: (k2 ++ ", f=2\x7d".data))) =
        ',' :: ' ' :: 'a' :: '=' :: '1' :: '\n' ::
          ('@' :: (U ++ '\x7b' :: (k2 ++ ", f=2\x7d".data))) from rfl,
      scanAux_struct_cons (by decide) h2,
      scanAux_plain_cons (by decide),
      scanAux_plain_cons (by decide),
      scanAux_struct_cons (by decide) (by decide),
      scanAux_plain_cons (by decide),
      scanAux_struct_cons (by decide) (by decide),
      scanAux_at hU,
      scanAux_plain_append hUp,
      scanAux_struct_cons (by decide) h1u,
      scanAux_plain_append hk2,
      scanAux_struct_cons (by decide) h2u]
  simp +decide [scanAux]
  constructor <;> omega

set_option maxHeartbeats 4000000 in
/-- Splitting `@T{k, a=1` (unterminated) followed by `@U{k2, f=2}` yields a
failed block spanning up to just before `@U`, then the entry for `U`. -/
theorem splitBib_abortRecover (T U k k2 : List Char)
    (hT : T.all wordChar = true) (hU : U.all wordChar = true)
    (hk : k.all plainChar = true) (hk2 : k2.all plainChar = true)
    (hcT : startsWithL ('@' :: pyLower T) "@comment".data = false)
    (hpT : startsWithL ('@' :: pyLower T) "@preamble".data = false)
    (hsT : startsWithL ('@' :: pyLower T) "@string".data = false)
    (hcU : startsWithL ('@' :: pyLower U) "@comment".data = false)
    (hpU : startsWithL ('@' :: pyLower U) "@preamble".data = false)
    (hsU : startsWithL ('@' :: pyLower U) "@string".data = false)
    (hks2 : pstrip k2 = k2) :
    splitBib (String.mk ('@' :: (T ++ '\x7b' :: (k ++
        (", a=1\n@".data ++ (U ++ '\x7b' :: (k2 ++ ", f=2\x7d".data))))))) =
      .ok [.failed 0 (String.mk ('@' :: (T ++ '\x7b' :: (k ++ ", a=1\n".data)))),
        .entry ⟨1, String.mk (pyLower U), String.mk k2, [⟨1, "f", "2"⟩],
          String.mk ('@' :: (U ++ '\x7b' :: (k2 ++ ", f=2\x7d".data)))⟩] := by
  have hic1 : ∀ line : Int, endImplicitComment ('\n' :: '@' :: (T ++ '\x7b' :: (k ++
      ',' :: ' ' :: 'a' :: '=' :: '1' :: '\n' :: '@' ::
      (U ++ '\x7b' :: (k2 ++ [',', ' ', 'f', '=', '2', '\x7d']))))) (some 0) line 1
      = none := by
    intro line
    refine endImplicitComment_newlines (m := 1) line _ ?_
    exact slice_concrete (P := []) (M := ['\n'])
      (R := '@' :: (T ++ '\x7b' :: (k ++
        ',' :: ' ' :: 'a' :: '=' :: '1' :: '\n' :: '@' ::
        (U ++ '\x7b' :: (k2 ++ [',', ' ', 'f', '=', '2', '\x7d']))))) rfl rfl rfl
  have hic2 : ∀ line : Int, endImplicitComment ('\n' :: '@' :: (T ++ '\x7b' :: (k ++
      ',' :: ' ' :: 'a' :: '=' :: '1' :: '\n' :: '@' ::
      (U ++ '\x7b' :: (k2 ++ [',', ' ', 'f', '=', '2', '\x7d'])))))
      (some (T.length + k.length + 9 + 1)) line (T.length + k.length + 9)
      = none := by
    intro line
    exact endImplicitComment_nil _ _ (slice_nil (by omega))
  have hfb : slice ('\n' :: '@' :: (T ++ '\x7b' :: (k ++
      ',' :: ' ' :: 'a' :: '=' :: '1' :: '\n' :: '@' ::
      (U ++ '\x7b' :: (k2 ++ [',', ' ', 'f', '=', '2', '\x7d']))))) 1
      (T.length + k.length + 9) =
      '@' :: (T ++ '\x7b' :: (k ++ [',', ' ', 'a', '=', '1', '\n'])) := by
    refine slice_concrete (P := ['\n'])
      (M := '@' :: (T ++ '\x7b' :: (k ++ [',', ' ', 'a', '=', '1', '\n'])))
      (R := '@' :: (U ++ '\x7b' :: (k2 ++ [',', ' ', 'f', '=', '2', '\x7d']))) ?_ ?_ ?_
    · simp [List.append_assoc]
    · rfl
    · simp
      omega
  unfold splitBib
  rw [show (String.mk ('@' :: (T ++ '\x7b' :: (k ++
      (", a=1\n@".data ++ (U ++ '\x7b' :: (k2 ++ ", f=2\x7d".data))))))).data =
      '@' :: (T ++ '\x7b' :: (k ++
      (", a=1\n@".data ++ (U ++ '\x7b' :: (k2 ++ ", f=2\x7d".data))))) from rfl]
  rw [marks_abortRecover T U k k2 hT hU hk hk2]
  simp only [initSt, List.length_cons, List.length_nil]
  simp [splitLoop, splitStep, nextMark, nextMarkList, hic1, hic2, hfb,
    hcT, hpT, hsT, hcU, hpU, hsU, handleEntry_abortAt, resetBlockStatus]
  rw [handleEntry_entry1 k2 ('@' :: (U ++ '\x7b' :: (k2 ++ ", f=2\x7d".data)))
    ?hkey ?hk1 ?hv1 ?hraw]
  case hkey =>
    rw [slice_concrete
      (P := '\n' :: '@' :: (T ++ '\x7b' :: (k ++ (", a=1\n@".data ++ (U ++ ['\x7b'])))))
      (M := k2) (R := ", f=2\x7d".data)
      (by simp [List.append_assoc]) (by simp; omega) (by simp; omega)]
    exact hks2
  case hk1 =>
    rw [slice_concrete
      (P := '\n' :: '@' :: (T ++ '\x7b' :: (k ++ (", a=1\n@".data ++
        (U ++ '\x7b' :: (k2 ++ [',']))))))
      (M := " f".data) (R := "=2\x7d".data)
      (by simp [List.append_assoc]) (by simp; omega) (by simp; omega)]
    decide
  case hv1 =>
    rw [slice_concrete
      (P := '\n' :: '@' :: (T ++ '\x7b' :: (k ++ (", a=1\n@".data ++
        (U ++ '\x7b' :: (k2 ++ ", f=".data))))))
      (M := "2".data) (R := "\x7d".data)
      (by simp [List.append_assoc]) (by simp; omega) (by simp; omega)]
    decide
  case hraw =>
    rw [slice_suffix
      (P := '\n' :: '@' :: (T ++ '\x7b' :: (k ++ ", a=1\n".data)))
      (S := '@' :: (U ++ '\x7b' :: (k2 ++ ", f=2\x7d".data)))
      (by simp [List.append_assoc]) (by simp; omega) (by simp; omega)]
  simp [resetBlockStatus, nextMark, nextMarkList, splitFinish]
  rw [endImplicitComment_nil _ _ (slice_nil (by simp; omega))]

/-! ## Structural lemmas -/

/-- The duplicate-rename scan finds the least free suffix at or above the
starting count: the returned count is free, and every smaller count at or
above the start is occupied. -/
theorem findSuffix_least {fields : List Field} {key : String} {f c n : Nat}
    (h : findSuffix fields key f c = some n) :
    c ≤ n ∧ hasKey fields (dupName key n) = false ∧
      ∀ m, c ≤ m → m < n → hasKey fields (dupName key m) = true := by
  induction f generalizing c with
  | zero => cases h
  | succ f ih =>
    unfold findSuffix at h
    cases hcase : hasKey fields (dupName key c) with
    | false =>
      rw [hcase] at h
      simp at h
      subst h
      exact ⟨Nat.le_refl _, hcase, fun m h1 h2 => absurd h1 (by omega)⟩
    | true =>
      rw [hcase] at h
      simp at h
      obtain ⟨h1, h2, h3⟩ := ih h
      refine ⟨by omega, h2, fun m hm1 hm2 => ?_⟩
      rcases Nat.eq_or_lt_of_le hm1 with rfl | hlt
      · exact hcase
      · exact h3 m (by omega) hm2

/-- A backslash-escaped closing brace is invisible to the token scanner:
no mark is produced for either character. -/
theorem scanAux_escaped_rbrace (ys : List Char) (prev : Option Char) (i : Nat) :
    scanAux ('\\' :: '\x7d' :: ys) prev i = scanAux ys (some '\x7d') (i + 2) := by
  simp +decide +arith [scanAux]

/-- `_handle_entry` aborts (recoverably, pushing the offending mark back)
whenever the mark after the entry key is not a comma: an `Entry` is only
ever produced when a comma follows the entry key. -/
theorem handleEntry_no_comma {bib : List Char} {fuel : Nat} {m : Mark}
    {vw : List Char} {st st1 st2 : SplitSt} {sb cm : Mark}
    (e1 : nextMarkE bib.length st = .ok (sb, st1)) (hsb : sb.val = .lbrace)
    (e2 : nextMarkE bib.length st1 = .ok (cm, st2)) (hcm : cm.val ≠ .comma) :
    handleEntry bib fuel m vw st = .error (.aborted cm.stop (pushBackS cm st2)) := by
  unfold handleEntry
  rw [e1]
  dsimp only
  rw [hsb]
  dsimp only
  rw [e2]
  dsimp only
  cases hv : cm.val <;> first | (exact absurd hv hcm) | rfl

/-- After every dispatched block (appended as success or as recovered
failure), `_reset_block_status` has run: bracket depth zero, quote flag
clear, expected-next cleared, and the implicit-comment markers reset to
one past the current position. -/
theorem splitStep_reset {bib : List Char} {fuel : Nat} {st : SplitSt}
    {lib lib' : List Block} {st' : SplitSt}
    (h : splitStep bib fuel st lib = .cont lib' st') (hne : lib' ≠ lib) :
    st'.openBrackets = 0 ∧ st'.isQuoteOpen = false ∧ st'.expectedNext = none ∧
      st'.icStart = some (st'.scan.charIdx + 1) ∧ st'.icLine = st'.scan.line := by
  unfold splitStep at h
  dsimp only at h
  repeat' split at h
  all_goals cases h
  all_goals first
    | exact absurd rfl hne
    | simp [resetBlockStatus]

/-! ## Claim theorems -/

/-- C1 (counterexample): on `@t{k, a=1, b="x", c={y}}` the splitter keeps
the value delimiters: field `c` maps to `{y}` and field `b` to `"x"` with
the quotes, refuting "delimiters not included". -/
theorem C1_counterexample :
    splitBib "@t\x7bk, a=1, b=\"x\", c=\x7by\x7d\x7d" =
      .ok [.entry ⟨0, "t", "k",
        [⟨0, "a", "1"⟩, ⟨0, "b", "\"x\""⟩, ⟨0, "c", "\x7by\x7d"⟩],
        "@t\x7bk, a=1, b=\"x\", c=\x7by\x7d\x7d"⟩] ∧
    ("\x7by\x7d" : String) ≠ "y" ∧ ("\"x\"" : String) ≠ "x" :=
  ⟨rfl, by decide, by decide⟩

/-- C1 (amended): for every valid entry `@T{k, a=1, b="x", c={y}}` the
splitter emits an Entry with `entry_type` the lowercased `T`, key `k`, and
ordered fields `a→"1"`, `b→"\"x\""`, `c→"{y}"`: each value is the raw
source text from just after the `=` through the end of the value with the
quote/brace delimiters included, trimmed of surrounding whitespace only,
and fields appear in appearance order. -/
theorem C1_entry_fields (T k : List Char)
    (hT : T.all wordChar = true) (hk : k.all plainChar = true)
    (hc : startsWithL ('@' :: pyLower T) "@comment".data = false)
    (hp : startsWithL ('@' :: pyLower T) "@preamble".data = false)
    (hs : startsWithL ('@' :: pyLower T) "@string".data = false)
    (hks : pstrip k = k) :
    splitBib (String.mk ('@' :: (T ++ '\x7b' :: (k ++ ", a=1, b=\"x\", c=\x7by\x7d\x7d".data)))) =
      .ok [.entry ⟨0, String.mk (pyLower T), String.mk k,
        [⟨0, "a", "1"⟩, ⟨0, "b", "\"x\""⟩, ⟨0, "c", "\x7by\x7d"⟩],
        String.mk ('@' :: (T ++ '\x7b' :: (k ++ ", a=1, b=\"x\", c=\x7by\x7d\x7d".data)))⟩] := by
  have h := splitBib_entry3 0 T k hT hk hc hp hs hks
  simpa using h

/-- C1 (witness): the amended theorem applied to `@Article{key, …}`. -/
theorem C1_witness :
    ("Article".data.all wordChar = true) ∧ ("key".data.all plainChar = true) ∧
    (pstrip "key".data = "key".data) ∧
    splitBib (String.mk ('@' :: ("Article".data ++ '\x7b' ::
        ("key".data ++ ", a=1, b=\"x\", c=\x7by\x7d\x7d".data)))) =
      .ok [.entry ⟨0, String.mk (pyLower "Article".data), String.mk "key".data,
        [⟨0, "a", "1"⟩, ⟨0, "b", "\"x\""⟩, ⟨0, "c", "\x7by\x7d"⟩],
        String.mk ('@' :: ("Article".data ++ '\x7b' ::
          ("key".data ++ ", a=1, b=\"x\", c=\x7by\x7d\x7d".data)))⟩] :=
  ⟨by decide, by decide, by decide,
    C1_entry_fields "Article".data "key".data (by decide) (by decide)
      (by decide) (by decide) (by decide) (by decide)⟩

/-- C2 (code behavior): the Entry raw span runs one character past the
closing brace: on `@a{k,f=1}\n@b{x,g=2}` the first entry's raw is
`"@a{k,f=1}\n"`, including the newline after `}`, contradicting the claim
that raw contains no character after the closing brace. -/
theorem C2_raw_off_by_one :
    splitBib "@a\x7bk,f=1\x7d\n@b\x7bx,g=2\x7d" =
      .ok [.entry ⟨0, "a", "k", [⟨0, "f", "1"⟩], "@a\x7bk,f=1\x7d\n"⟩,
        .entry ⟨1, "b", "x", [⟨1, "g", "2"⟩], "@b\x7bx,g=2\x7d"⟩] ∧
    ("@a\x7bk,f=1\x7d\n" : String) ≠ "@a\x7bk,f=1\x7d" :=
  ⟨rfl, by decide⟩

/-- C3: `@t{k, a=1, a=2}` yields a DuplicateFieldKeyBlock (not a plain
Entry) wrapping an entry that keeps both fields, the second renamed
`a_duplicate_1`, with duplicate key set `{a}`; and in general the rename
scan returns the first suffix count (from the starting count upward) whose
rename target is not yet a key of the field map. -/
theorem C3_duplicate_field_keys :
    (splitBib "@t\x7bk, a=1, a=2\x7d" =
      .ok [.dupEntry ["a"] ⟨0, "t", "k",
        [⟨0, "a", "1"⟩, ⟨0, "a_duplicate_1", "2"⟩], "@t\x7bk, a=1, a=2\x7d"⟩]) ∧
    ∀ (fields : List Field) (key : String) (f c n : Nat),
      findSuffix fields key f c = some n →
      c ≤ n ∧ hasKey fields (dupName key n) = false ∧
        ∀ m, c ≤ m → m < n → hasKey fields (dupName key m) = true :=
  ⟨rfl, fun _ _ _ _ _ h => findSuffix_least h⟩

/-- C3 (witness): the rename-scan property at a concrete field map where
`a_duplicate_1` is already taken, so the scan returns 2. -/
theorem C3_witness :
    findSuffix [⟨0, "a", "1"⟩, ⟨0, "a_duplicate_1", "2"⟩] "a" 3 1 = some 2 ∧
    (1 ≤ 2 ∧
      hasKey [⟨0, "a", "1"⟩, ⟨0, "a_duplicate_1", "2"⟩] (dupName "a" 2) = false ∧
      ∀ m, 1 ≤ m → m < 2 →
        hasKey [⟨0, "a", "1"⟩, ⟨0, "a_duplicate_1", "2"⟩] (dupName "a" m) = true) :=
  ⟨rfl, C3_duplicate_field_keys.2 [⟨0, "a", "1"⟩, ⟨0, "a_duplicate_1", "2"⟩]
    "a" 3 1 2 rfl⟩

/-- C4: an unterminated `@T{k, a=1` followed by `@U{k2, f=2}` produces
exactly one ParsingFailedBlock whose raw runs from `@T` to just before
`@U`, then the correctly parsed entry for `U`; the two raw spans
partition the buffer, so no input is skipped or duplicated across the
recovery boundary. -/
theorem C4_abort_recovery (T U k k2 : List Char)
    (hT : T.all wordChar = true) (hU : U.all wordChar = true)
    (hk : k.all plainChar = true) (hk2 : k2.all plainChar = true)
    (hcT : startsWithL ('@' :: pyLower T) "@comment".data = false)
    (hpT : startsWithL ('@' :: pyLower T) "@preamble".data = false)
    (hsT : startsWithL ('@' :: pyLower T) "@string".data = false)
    (hcU : startsWithL ('@' :: pyLower U) "@comment".data = false)
    (hpU : startsWithL ('@' :: pyLower U) "@preamble".data = false)
    (hsU : startsWithL ('@' :: pyLower U) "@string".data = false)
    (hks2 : pstrip k2 = k2) :
    splitBib (String.mk ('@' :: (T ++ '\x7b' :: (k ++
        (", a=1\n@".data ++ (U ++ '\x7b' :: (k2 ++ ", f=2\x7d".data))))))) =
      .ok [.failed 0 (String.mk ('@' :: (T ++ '\x7b' :: (k ++ ", a=1\n".data)))),
        .entry ⟨1, String.mk (pyLower U), String.mk k2, [⟨1, "f", "2"⟩],
          String.mk ('@' :: (U ++ '\x7b' :: (k2 ++ ", f=2\x7d".data)))⟩] ∧
    ('@' :: (T ++ '\x7b' :: (k ++ ", a=1\n".data))) ++
        ('@' :: (U ++ '\x7b' :: (k2 ++ ", f=2\x7d".data))) =
      '@' :: (T ++ '\x7b' :: (k ++
        (", a=1\n@".data ++ (U ++ '\x7b' :: (k2 ++ ", f=2\x7d".data))))) :=
  ⟨splitBib_abortRecover T U k k2 hT hU hk hk2 hcT hpT hsT hcU hpU hsU hks2,
    by simp [List.append_assoc]⟩

/-- C4 (witness): the recovery scenario at `@article{k1, …` / `@book{k2, …}`. -/
theorem C4_witness :
    ("article".data.all wordChar = true) ∧ ("book".data.all wordChar = true) ∧
    ("k1".data.all plainChar = true) ∧ ("k2".data.all plainChar = true) ∧
    (pstrip "k2".data = "k2".data) ∧
    (splitBib (String.mk ('@' :: ("article".data ++ '\x7b' :: ("k1".data ++
        (", a=1\n@".data ++ ("book".data ++ '\x7b' :: ("k2".data ++ ", f=2\x7d".data))))))) =
      .ok [.failed 0 (String.mk ('@' :: ("article".data ++ '\x7b' ::
          ("k1".data ++ ", a=1\n".data)))),
        .entry ⟨1, String.mk (pyLower "book".data), String.mk "k2".data,
          [⟨1, "f", "2"⟩],
          String.mk ('@' :: ("book".data ++ '\x7b' :: ("k2".data ++ ", f=2\x7d".data)))⟩]) :=
  ⟨by decide, by decide, by decide, by decide, by decide,
    (C4_abort_recovery "article".data "book".data "k1".data "k2".data
      (by decide) (by decide) (by decide) (by decide) (by decide) (by decide)
      (by decide) (by decide) (by decide) (by decide) (by decide)).1⟩

/-- C5 (counterexample): on `@A{x,f=1}\n\nSome notes\n\n@B{y,f=2}` the
implicit comment's `raw` is the trimmed text `"Some notes"`, not the
exact consumed span `"\n\nSome notes\n\n"`: the stripped blank lines are
absent from `raw`, refuting the claim's last conjunct. -/
theorem C5_counterexample :
    splitBib "@A\x7bx,f=1\x7d\n\nSome notes\n\n@B\x7by,f=2\x7d" =
      .ok [.entry ⟨0, "a", "x", [⟨0, "f", "1"⟩], "@A\x7bx,f=1\x7d\n"⟩,
        .implicitComment 2 "Some notes" "Some notes",
        .entry ⟨4, "b", "y", [⟨4, "f", "2"⟩], "@B\x7by,f=2\x7d"⟩] ∧
    String.mk (slice ('\n' :: "@A\x7bx,f=1\x7d\n\nSome notes\n\n@B\x7by,f=2\x7d".data) 10 24) =
      "\n\nSome notes\n\n" ∧
    ("Some notes" : String) ≠ "\n\nSome notes\n\n" :=
  ⟨rfl, rfl, by decide⟩

/-- C5 (amended): the input yields Entry(A), an ImplicitComment whose
`comment` is the stray text with surrounding blank lines stripped, and
Entry(B); the ImplicitComment's `raw` equals the trimmed comment text
itself (the stripped blank lines appear in neither field). -/
theorem C5_implicit_comment :
    splitBib "@A\x7bx,f=1\x7d\n\nSome notes\n\n@B\x7by,f=2\x7d" =
      .ok [.entry ⟨0, "a", "x", [⟨0, "f", "1"⟩], "@A\x7bx,f=1\x7d\n"⟩,
        .implicitComment 2 "Some notes" "Some notes",
        .entry ⟨4, "b", "y", [⟨4, "f", "2"⟩], "@B\x7by,f=2\x7d"⟩] := rfl

/-- C6 (counterexample): a block beginning on the first line of the
caller's buffer reports `start_line = 0`, not `1`: line numbers are
0-based. -/
theorem C6_counterexample :
    splitBib "@a\x7bk,f=1\x7d" =
      .ok [.entry ⟨0, "a", "k", [⟨0, "f", "1"⟩], "@a\x7bk,f=1\x7d"⟩] ∧
    (0 : Int) ≠ 1 :=
  ⟨rfl, by decide⟩

/-- C6 (amended): reported start lines are 0-based as experienced by the
caller: an entry preceded by `n` blank lines reports `start_line = n`
(its fields likewise), and the synthetic leading newline is compensated
by the `-1` initial line counter, so it does not shift reported lines or
appear in raw spans. -/
theorem C6_zero_based_lines (n : Nat) (T k : List Char)
    (hT : T.all wordChar = true) (hk : k.all plainChar = true)
    (hc : startsWithL ('@' :: pyLower T) "@comment".data = false)
    (hp : startsWithL ('@' :: pyLower T) "@preamble".data = false)
    (hs : startsWithL ('@' :: pyLower T) "@string".data = false)
    (hks : pstrip k = k) :
    splitBib (String.mk (List.replicate n '\n' ++
        ('@' :: (T ++ '\x7b' :: (k ++ ", a=1, b=\"x\", c=\x7by\x7d\x7d".data))))) =
      .ok [.entry ⟨(n : Int), String.mk (pyLower T), String.mk k,
        [⟨(n : Int), "a", "1"⟩, ⟨(n : Int), "b", "\"x\""⟩, ⟨(n : Int), "c", "\x7by\x7d"⟩],
        String.mk ('@' :: (T ++ '\x7b' :: (k ++ ", a=1, b=\"x\", c=\x7by\x7d\x7d".data)))⟩] :=
  splitBib_entry3 n T k hT hk hc hp hs hks

/-- C6 (witness): two blank lines before `@t{k, …}` give start_line 2. -/
theorem C6_witness :
    ("t".data.all wordChar = true) ∧ ("k".data.all plainChar = true) ∧
    (pstrip "k".data = "k".data) ∧
    splitBib (String.mk (List.replicate 2 '\n' ++
        ('@' :: ("t".data ++ '\x7b' :: ("k".data ++ ", a=1, b=\"x\", c=\x7by\x7d\x7d".data))))) =
      .ok [.entry ⟨(2 : Int), String.mk (pyLower "t".data), String.mk "k".data,
        [⟨(2 : Int), "a", "1"⟩, ⟨(2 : Int), "b", "\"x\""⟩, ⟨(2 : Int), "c", "\x7by\x7d"⟩],
        String.mk ('@' :: ("t".data ++ '\x7b' :: ("k".data ++ ", a=1, b=\"x\", c=\x7by\x7d\x7d".data)))⟩] :=
  ⟨by decide, by decide, by decide,
    C6_zero_based_lines 2 "t".data "k".data (by decide) (by decide) (by decide)
      (by decide) (by decide) (by decide)⟩

/-- C7 (counterexample): on `@t{k, a={x\}y}}` the escaped brace does not
close the value, but the resulting value of `a` is `{x\}y}` (delimiters
and backslash kept verbatim), not `x}y` as claimed. -/
theorem C7_counterexample :
    splitBib "@t\x7bk, a=\x7bx\\\x7dy\x7d\x7d" =
      .ok [.entry ⟨0, "t", "k", [⟨0, "a", "\x7bx\\\x7dy\x7d"⟩], "@t\x7bk, a=\x7bx\\\x7dy\x7d\x7d"⟩] ∧
    ("\x7bx\\\x7dy\x7d" : String) ≠ "x\x7dy" :=
  ⟨rfl, by decide⟩

/-- C7 (amended): a `}` immediately preceded by a backslash is invisible
to the token scanner — it produces no mark, so it cannot close a value
region — and on `@t{k, a={x\}y}}` the closing-brace locator continues to
the true closing brace, yielding one entry whose field `a` has the value
`{x\}y}` with the escaped brace kept as literal text. -/
theorem C7_escaped_brace :
    (∀ (ys : List Char) (prev : Option Char) (i : Nat),
      scanAux ('\\' :: '\x7d' :: ys) prev i = scanAux ys (some '\x7d') (i + 2)) ∧
    splitBib "@t\x7bk, a=\x7bx\\\x7dy\x7d\x7d" =
      .ok [.entry ⟨0, "t", "k", [⟨0, "a", "\x7bx\\\x7dy\x7d"⟩], "@t\x7bk, a=\x7bx\\\x7dy\x7d\x7d"⟩] :=
  ⟨scanAux_escaped_rbrace, rfl⟩

/-- C8 (counterexample): after the aborted block of
`@t{k, a=1\n@u{x, f=2}` the pushback slot is not reset: it still holds
the `@u` boundary mark when the next block is scanned (and scanning then
proceeds from it), refuting "the pushback slot … is reset before the next
block is scanned". -/
theorem C8_counterexample :
    splitStep ('\n' :: "@t\x7bk, a=1\n@u\x7bx, f=2\x7d".data) 20
        (initSt (marksOf ('\n' :: "@t\x7bk, a=1\n@u\x7bx, f=2\x7d".data))) [] =
      .cont [.failed 0 "@t\x7bk, a=1\n"]
        ⟨⟨some ⟨11, .atWord "u".data⟩,
          [⟨13, .lbrace⟩, ⟨15, .comma⟩, ⟨18, .equal⟩, ⟨20, .rbrace⟩], 1, 11⟩,
          0, false, none, some 12, 1⟩ ∧
    (some (⟨11, .atWord "u".data⟩ : Mark) ≠ none) ∧
    splitStep ('\n' :: "@t\x7bk, a=1\n@u\x7bx, f=2\x7d".data) 20
        ⟨⟨some ⟨11, .atWord "u".data⟩,
          [⟨13, .lbrace⟩, ⟨15, .comma⟩, ⟨18, .equal⟩, ⟨20, .rbrace⟩], 1, 11⟩,
          0, false, none, some 12, 1⟩ [.failed 0 "@t\x7bk, a=1\n"] =
      .cont [.failed 0 "@t\x7bk, a=1\n",
          .entry ⟨1, "u", "x", [⟨1, "f", "2"⟩], "@u\x7bx, f=2\x7d"⟩]
        ⟨⟨none, [], 1, 20⟩, 0, false, none, some 21, 1⟩ :=
  ⟨rfl, by decide, rfl⟩

/-- C8 (amended): after every dispatched block (success or recovered
failure) the bracket depth, quote-open flag, expected-next hint and the
implicit-comment markers are reset before the next block is scanned; the
pushback slot is not touched by the reset: it is empty after a successful
block, while after a recovered failure it deliberately holds the boundary
token so that scanning resumes there without corruption. -/
theorem C8_reset_between_blocks :
    (∀ (bib : List Char) (fuel : Nat) (st : SplitSt) (lib lib' : List Block)
      (st' : SplitSt),
      splitStep bib fuel st lib = .cont lib' st' → lib' ≠ lib →
      st'.openBrackets = 0 ∧ st'.isQuoteOpen = false ∧ st'.expectedNext = none ∧
        st'.icStart = some (st'.scan.charIdx + 1) ∧ st'.icLine = st'.scan.line) ∧
    (splitStep ('\n' :: "@a\x7bk,f=1\x7d".data) 20
        (initSt (marksOf ('\n' :: "@a\x7bk,f=1\x7d".data))) [] =
      .cont [.entry ⟨0, "a", "k", [⟨0, "f", "1"⟩], "@a\x7bk,f=1\x7d"⟩]
        ⟨⟨none, [], 0, 9⟩, 0, false, none, some 10, 0⟩) ∧
    (splitStep ('\n' :: "@t\x7bk, a=1\n@u\x7bx, f=2\x7d".data) 20
        (initSt (marksOf ('\n' :: "@t\x7bk, a=1\n@u\x7bx, f=2\x7d".data))) [] =
      .cont [.failed 0 "@t\x7bk, a=1\n"]
        ⟨⟨some ⟨11, .atWord "u".data⟩,
          [⟨13, .lbrace⟩, ⟨15, .comma⟩, ⟨18, .equal⟩, ⟨20, .rbrace⟩], 1, 11⟩,
          0, false, none, some 12, 1⟩) :=
  ⟨fun _ _ _ _ _ _ h hne => splitStep_reset h hne, rfl, rfl⟩

/-- C8 (witness): the reset property applied to the successful
`@a{k,f=1}` step. -/
theorem C8_witness :
    (splitStep ('\n' :: "@a\x7bk,f=1\x7d".data) 20
        (initSt (marksOf ('\n' :: "@a\x7bk,f=1\x7d".data))) [] =
      .cont [.entry ⟨0, "a", "k", [⟨0, "f", "1"⟩], "@a\x7bk,f=1\x7d"⟩]
        ⟨⟨none, [], 0, 9⟩, 0, false, none, some 10, 0⟩) ∧
    ([Block.entry ⟨0, "a", "k", [⟨0, "f", "1"⟩], "@a\x7bk,f=1\x7d"⟩] ≠ ([] : List Block)) ∧
    ((⟨⟨none, [], 0, 9⟩, 0, false, none, some 10, 0⟩ : SplitSt).openBrackets = 0 ∧
      (⟨⟨none, [], 0, 9⟩, 0, false, none, some 10, 0⟩ : SplitSt).isQuoteOpen = false ∧
      (⟨⟨none, [], 0, 9⟩, 0, false, none, some 10, 0⟩ : SplitSt).expectedNext = none ∧
      (⟨⟨none, [], 0, 9⟩, 0, false, none, some 10, 0⟩ : SplitSt).icStart =
        some ((⟨⟨none, [], 0, 9⟩, 0, false, none, some 10, 0⟩ : SplitSt).scan.charIdx + 1) ∧
      (⟨⟨none, [], 0, 9⟩, 0, false, none, some 10, 0⟩ : SplitSt).icLine =
        (⟨⟨none, [], 0, 9⟩, 0, false, none, some 10, 0⟩ : SplitSt).scan.line) :=
  ⟨rfl, by decide,
    C8_reset_between_blocks.1 ('\n' :: "@a\x7bk,f=1\x7d".data) 20
      (initSt (marksOf ('\n' :: "@a\x7bk,f=1\x7d".data))) []
      [.entry ⟨0, "a", "k", [⟨0, "f", "1"⟩], "@a\x7bk,f=1\x7d"⟩]
      ⟨⟨none, [], 0, 9⟩, 0, false, none, some 10, 0⟩ rfl (by decide)⟩

/-- C9 (code behavior): on `@a{k,f=1}x` the emitted Entry's raw is the
whole input (the char after `}` leaks in), so splitting that raw alone —
i.e. this very input — re-yields two blocks (the entry plus an implicit
comment `"x"`), not exactly one block. -/
theorem C9_not_idempotent :
    splitBib "@a\x7bk,f=1\x7dx" =
      .ok [.entry ⟨0, "a", "k", [⟨0, "f", "1"⟩], "@a\x7bk,f=1\x7dx"⟩,
        .implicitComment 0 "x" "x"] ∧
    ([Block.entry ⟨0, "a", "k", [⟨0, "f", "1"⟩], "@a\x7bk,f=1\x7dx"⟩,
      Block.implicitComment 0 "x" "x"].length ≠ 1) :=
  ⟨rfl, by decide⟩

/-- C10: the zero-field entry `@misc{key}` (no comma after the key)
produces a ParsingFailedBlock, never an Entry; and in general, whenever
the mark after the entry key is not a comma, `_handle_entry` raises a
recoverable abort (pushing the offending mark back), so an Entry is only
ever produced when a comma follows the entry key. -/
theorem C10_entry_requires_comma :
    (splitBib "@misc\x7bkey\x7d" = .ok [.failed 0 "@misc\x7bkey\x7d"]) ∧
    ∀ (bib : List Char) (fuel : Nat) (m : Mark) (vw : List Char)
      (st st1 st2 : SplitSt) (sb cm : Mark),
      nextMarkE bib.length st = .ok (sb, st1) → sb.val = .lbrace →
      nextMarkE bib.length st1 = .ok (cm, st2) → cm.val ≠ .comma →
      handleEntry bib fuel m vw st = .error (.aborted cm.stop (pushBackS cm st2)) :=
  ⟨rfl, fun _ _ _ _ _ _ _ _ _ e1 hsb e2 hcm => handleEntry_no_comma e1 hsb e2 hcm⟩

/-- C10 (witness): the abort property at the concrete state reached
inside `@misc{key}` after the `@misc` mark, where the mark after the key
is the closing brace. -/
theorem C10_witness :
    (nextMarkE ('\n' :: "@misc\x7bkey\x7d".data).length
        ⟨⟨none, [⟨6, .lbrace⟩, ⟨10, .rbrace⟩], 0, 1⟩, 0, false, none, none, -1⟩ =
      .ok (⟨6, .lbrace⟩,
        ⟨⟨none, [⟨10, .rbrace⟩], 0, 6⟩, 0, false, none, none, -1⟩)) ∧
    ((⟨6, .lbrace⟩ : Mark).val = .lbrace) ∧
    (nextMarkE ('\n' :: "@misc\x7bkey\x7d".data).length
        ⟨⟨none, [⟨10, .rbrace⟩], 0, 6⟩, 0, false, none, none, -1⟩ =
      .ok (⟨10, .rbrace⟩, ⟨⟨none, [], 0, 10⟩, 0, false, none, none, -1⟩)) ∧
    ((⟨10, .rbrace⟩ : Mark).val ≠ .comma) ∧
    handleEntry ('\n' :: "@misc\x7bkey\x7d".data) 20 ⟨1, .atWord "misc".data⟩
        ('@' :: "misc".data)
        ⟨⟨none, [⟨6, .lbrace⟩, ⟨10, .rbrace⟩], 0, 1⟩, 0, false, none, none, -1⟩ =
      .error (.aborted 11
        (pushBackS ⟨10, .rbrace⟩ ⟨⟨none, [], 0, 10⟩, 0, false, none, none, -1⟩)) :=
  ⟨rfl, rfl, rfl, by decide,
    C10_entry_requires_comma.2 ('\n' :: "@misc\x7bkey\x7d".data) 20
      ⟨1, .atWord "misc".data⟩ ('@' :: "misc".data)
      ⟨⟨none, [⟨6, .lbrace⟩, ⟨10, .rbrace⟩], 0, 1⟩, 0, false, none, none, -1⟩
      ⟨⟨none, [⟨10, .rbrace⟩], 0, 6⟩, 0, false, none, none, -1⟩
      ⟨⟨none, [], 0, 10⟩, 0, false, none, none, -1⟩
      ⟨6, .lbrace⟩ ⟨10, .rbrace⟩ rfl rfl rfl (by decide)⟩

end BibSplit
